import Mathlib

/-!
Shallow embedding of the real-time recommendation pipeline of this repository:
the recommendation cache (`src/feature_store/recommendation_cache.py`), the
candidate generator (`src/models/candidate_generation.py`), the ranker
(`src/models/ranker.py`), the A/B-testing experiment manager
(`src/evaluation/ab_testing.py`), the online learner
(`src/models/online_learner.py`) and the event processor
(`src/ingestion/event_processor.py`).

Modelling conventions:
* Python floats are modelled as exact rationals (`Rat`); wall-clock instants
  are natural numbers counting seconds, calendar dates natural numbers
  counting days.
* Python strings that take part in key construction and pattern matching are
  modelled as `List Char`; strings that are only stored or compared for
  equality stay `String`.
* Python dicts used as ordered key-value maps (they iterate in insertion
  order) are modelled as association lists `List (kappa × beta)` with
  insertion-order semantics; assignment to an existing key overwrites the
  value in place, assignment to a fresh key appends at the end.
* Fallible operations return `Except`/`Option`; a caught exception is the
  `.error` branch.
-/

namespace RecSys

/-! ## Ordered association lists (Python `dict` iteration/update semantics) -/

/-- First value bound to key `k`, scanning in insertion order. -/
def assocFind {κ : Type} {β : Type} [DecidableEq κ] : List (κ × β) → κ → Option β
  | [], _ => none
  | (k', v) :: rest, k => if k' = k then some v else assocFind rest k

/-- Python `d[k] = v`: overwrite in place if `k` is present, else append. -/
def assocSet {κ : Type} {β : Type} [DecidableEq κ] : List (κ × β) → κ → β → List (κ × β)
  | [], k, v => [(k, v)]
  | (k', v') :: rest, k, v =>
      if k' = k then (k, v) :: rest else (k', v') :: assocSet rest k v

/-- Python `del d[k]`: remove the (first) binding of `k`. -/
def assocErase {κ : Type} {β : Type} [DecidableEq κ] : List (κ × β) → κ → List (κ × β)
  | [], _ => []
  | (k', v') :: rest, k => if k' = k then rest else (k', v') :: assocErase rest k

/-! ## Decimal rendering of natural numbers (Python `str(int)` inside f-strings) -/

/-- The decimal digit character for `d < 10`. -/
def digitChar (d : Nat) : Char := Char.ofNat (48 + d)

/-- Decimal rendering of a natural number as a character list, most
significant digit first — the embedding of Python `str(n)` for the
non-negative integers used as ids in this system. -/
def natToChars (n : Nat) : List Char :=
  if h : n < 10 then [digitChar n]
  else natToChars (n / 10) ++ [digitChar (n % 10)]
  decreasing_by
    exact Nat.div_lt_self (Nat.lt_of_lt_of_le (by norm_num) (Nat.le_of_not_lt h)) (by norm_num)

/-- Numeric value of a decimal digit character. -/
def charVal (c : Char) : Nat := c.toNat - 48

/-- Read a digit-character list back as a number (used only to prove that
`natToChars` is injective). -/
def charsToNat (l : List Char) : Nat := l.foldl (fun a c => 10 * a + charVal c) 0

/-! ## `RecommendationCache` (src/feature_store/recommendation_cache.py)

The payload of a cache entry (the recommendation dictionaries) is opaque to
the cache, so it is a type parameter `α`. The Redis tier is `Option` (absent
when `get_redis()` returned `None`); a Redis value carries the serialized
entry together with the native expiry instant set by `SETEX` (set time plus
ttl). The in-memory fallback tier is an insertion-ordered association list. -/

/-- The dictionary stored under a cache key (`cache_data` in
`set_recommendations`). -/
structure CacheEntry (α : Type) where
  recommendations : List α
  cached_at : Nat
  expires_at : Nat
  model_type : List Char
  user_id : Nat
deriving Repr, DecidableEq

/-- The mutable state of a `RecommendationCache` instance. `cache_ttl` and
`max_memory_cache_size` are the constants fixed in `__init__`. -/
structure CacheState (α : Type) where
  redis : Option (List (List Char × (CacheEntry α × Nat)))
  mem : List (List Char × CacheEntry α)
deriving Repr

/-- Embeds `self.cache_ttl = 3600`. -/
def cacheTtl : Nat := 3600

/-- Embeds `self.max_memory_cache_size = 1000`. -/
def maxMemoryCacheSize : Nat := 1000

/-- Embeds `_get_cache_key(user_id, model_type, n_recommendations)`:
the f-string `rec:user:{user_id}:model:{model_type}:n:{n_recommendations}`. -/
def cacheKey (uid : Nat) (mt : List Char) (n : Nat) : List Char :=
  "rec:user:".data ++ natToChars uid ++ ":model:".data ++ mt ++ ":n:".data ++ natToChars n

/-- The user-level key pattern `rec:user:{user_id}:` used by
`invalidate_user_cache` (redis glob `rec:user:{user_id}:*` and
`key.startswith` on the memory tier). -/
def userKeyPat (uid : Nat) : List Char :=
  "rec:user:".data ++ natToChars uid ++ [':']

/-- Embeds `_is_cache_valid`: an entry is valid iff `utcnow() < expires_at`. -/
def isCacheValid {α : Type} (e : CacheEntry α) (now : Nat) : Bool :=
  decide (now < e.expires_at)

/-- A Redis `GET`: the value is visible only before its native expiry. -/
def redisGet {α : Type} (r : List (List Char × (CacheEntry α × Nat))) (now : Nat)
    (key : List Char) : Option (CacheEntry α) :=
  match assocFind r key with
  | some (e, exp) => if now < exp then some e else none
  | none => none

/-- Embeds `get_recommendations(user_id, model_type, n_recommendations)`. Returns the
cached list (or `none`) together with the possibly-updated state (an expired
memory entry is deleted on the way out). The Redis tier is consulted first;
an entry that the validity check rejects falls through to the memory tier. -/
def get_recommendations {α : Type} (s : CacheState α) (now : Nat) (uid : Nat)
    (mt : List Char) (n : Nat) : Option (List α) × CacheState α :=
  let key := cacheKey uid mt n
  let viaMem : Option (List α) × CacheState α :=
    match assocFind s.mem key with
    | some data =>
        if isCacheValid data now then (some data.recommendations, s)
        else (none, { s with mem := assocErase s.mem key })
    | none => (none, s)
  match s.redis with
  | some r =>
      match redisGet r now key with
      | some data => if isCacheValid data now then (some data.recommendations, s) else viaMem
      | none => viaMem
  | none => viaMem

/-- Embeds `ttl = ttl or self.cache_ttl` (Python `or`: `None` and `0` both fall back
to the default). -/
def effectiveTtl (ttl? : Option Nat) : Nat :=
  match ttl? with
  | some t => if t = 0 then cacheTtl else t
  | none => cacheTtl

/-- Embeds `set_recommendations(user_id, model_type, recommendations,
n_recommendations, ttl)`: builds `cache_data` with
`expires_at = cached_at + ttl`, writes it to Redis via `SETEX` (when Redis is
available), evicts the oldest-inserted memory entry when the memory tier is
full, and stores the entry in the memory tier. Returns the success flag and
the new state. -/
def set_recommendations {α : Type} (s : CacheState α) (now : Nat) (uid : Nat)
    (mt : List Char) (recs : List α) (n : Nat) (ttl? : Option Nat) :
    Bool × CacheState α :=
  let key := cacheKey uid mt n
  let ttl := effectiveTtl ttl?
  let entry : CacheEntry α :=
    { recommendations := recs, cached_at := now, expires_at := now + ttl
      model_type := mt, user_id := uid }
  let redis' := s.redis.map (fun r => assocSet r key (entry, now + ttl))
  let mem1 := if s.mem.length ≥ maxMemoryCacheSize then s.mem.tail else s.mem
  (true, { redis := redis', mem := assocSet mem1 key entry })

/-- Embeds `invalidate_user_cache(user_id)`: delete every key matching
`rec:user:{user_id}:*` from Redis and every memory key starting with
`rec:user:{user_id}:`. -/
def invalidate_user_cache {α : Type} (s : CacheState α) (uid : Nat) :
    Bool × CacheState α :=
  let pat := userKeyPat uid
  (true,
    { redis := s.redis.map (fun r => r.filter (fun kv => ! pat.isPrefixOf kv.1))
      mem := s.mem.filter (fun kv => ! pat.isPrefixOf kv.1) })

/-! ## `CandidateGenerator` (src/models/candidate_generation.py)

A scoring oracle (popularity / collaborative / content-based model) is
consumed only through `is_fitted` and `predict(user_id, n)`. Per the spec,
an oracle has a fixed ranked inventory of available items and `predict`
returns its first `n` items; an unfitted (or absent, or failing) oracle
contributes nothing — the `except` branch of each source is behaviourally
the unfitted case. Python `int(n * 0.4)` / `int(n * 0.3)` are the exact
truncations `2 * n / 5` / `3 * n / 10` in natural division. -/

/-- One recommendation dictionary as returned by an oracle's `predict`. -/
structure RecItem where
  item_id : Nat
  title : String
  score : Rat
deriving Repr, DecidableEq

/-- A scoring oracle with a fixed ranked inventory. -/
structure Oracle where
  fitted : Bool
  inv : List RecItem
deriving Repr

/-- What one source contributes: its top `n` items when fitted, else nothing. -/
def sourceRecs (o : Oracle) (n : Nat) : List RecItem :=
  if o.fitted then o.inv.take n else []

/-- A candidate after the generator tagged it (`rec['source'] = ...;
rec['initial_score'] = rec['score']`). The two ranker-written fields are
absent (`none`) until `Ranker.predict` scores the candidate. -/
structure Candidate where
  item_id : Nat
  title : String
  score : Rat
  source : String
  initial_score : Rat
  final_score : Option Rat := none
  ranker_contribution : Option Rat := none
deriving Repr, DecidableEq

/-- Tag an oracle recommendation with its source. -/
def toCandidate (src : String) (r : RecItem) : Candidate :=
  { item_id := r.item_id, title := r.title, score := r.score
    source := src, initial_score := r.score }

/-- One step of the dedup-by-`item_id` accumulation: `if item_id not in
candidates: candidates[item_id] = rec` (dict keyed by `item_id`, insertion
order preserved, so `list(candidates.values())` appends first-seen items). -/
def insertCand (acc : List Candidate) (c : Candidate) : List Candidate :=
  if acc.any (fun x => x.item_id == c.item_id) then acc else acc ++ [c]

/-- The tagged list the collaborative source contributes (quota
`int(n_candidates * 0.4)`). -/
def cfTagged (cf : Oracle) (n : Nat) : List Candidate :=
  (sourceRecs cf (2 * n / 5)).map (toCandidate "collaborative")

/-- The tagged list the content-based source contributes (quota
`int(n_candidates * 0.3)`). -/
def cbTagged (cb : Oracle) (n : Nat) : List Candidate :=
  (sourceRecs cb (3 * n / 10)).map (toCandidate "content_based")

/-- Popularity's request size:
`max(int(n_candidates * 0.3), n_candidates - current_count)` where
`current_count` is the pool size after the first two sources. -/
def popQuota (cf cb : Oracle) (n : Nat) : Nat :=
  max (3 * n / 10) (n - (List.foldl insertCand [] (cfTagged cf n ++ cbTagged cb n)).length)

/-- The tagged list the popularity source contributes. -/
def popTagged (cf cb pop : Oracle) (n : Nat) : List Candidate :=
  (sourceRecs pop (popQuota cf cb n)).map (toCandidate "popularity")

/-- Every tagged recommendation the three sources hand to the dedup dict, in
source-priority order. -/
def taggedAll (cf cb pop : Oracle) (n : Nat) : List Candidate :=
  cfTagged cf n ++ cbTagged cb n ++ popTagged cf cb pop n

/-- Embeds `CandidateGenerator.get_candidates(user_id, n_candidates)`: query the
collaborative, content-based and popularity sources in order, deduplicating
by `item_id` with first-seen-wins. The user id does not influence the fixed
inventories, but is kept to mirror the signature. -/
def getCandidates (cf cb pop : Oracle) (_userId : Nat) (n : Nat) : List Candidate :=
  let c1 := List.foldl insertCand [] (cfTagged cf n)
  let c2 := List.foldl insertCand c1 (cbTagged cb n)
  let nPop := max (3 * n / 10) (n - c2.length)
  List.foldl insertCand c2 ((sourceRecs pop nPop).map (toCandidate "popularity"))

/-! ## `Ranker` (src/models/ranker.py)

The trained LightGBM classifier (feature extraction plus
`predict_proba`) is consumed as an external scoring capability: a fallible
function from the user and the candidate list to one probability per
candidate. `model = None` is the untrained state; a raised exception is an
`.error` result; a score list shorter than the candidate list makes the
Python indexing `scores[i]` raise, which the same `except` turns into the
fallback. -/

/-- A `Ranker` instance: `self.model`, abstracted as the serving-time scoring
capability. -/
structure Ranker where
  model : Option (Nat → List Candidate → Except Unit (List Rat))

/-- Python `sorted(candidates, key=lambda x: x.get('initial_score', 0),
reverse=True)`: a stable descending sort on `initial_score`. -/
def sortByInitialScoreDesc (l : List Candidate) : List Candidate :=
  List.insertionSort (fun a b => b.initial_score ≤ a.initial_score) l

/-- Python `sorted(candidates, key=lambda x: x.get('final_score', 0),
reverse=True)` on the score-annotated candidates. -/
def sortByFinalScoreDesc (l : List Candidate) : List Candidate :=
  List.insertionSort (fun a b => b.final_score.getD 0 ≤ a.final_score.getD 0) l

instance : IsTotal Candidate (fun a b => b.initial_score ≤ a.initial_score) :=
  ⟨fun a b => le_total b.initial_score a.initial_score⟩

instance : IsTrans Candidate (fun a b => b.initial_score ≤ a.initial_score) :=
  ⟨fun _ _ _ hab hbc => le_trans hbc hab⟩

/-- Write `final_score` and `ranker_contribution` onto each candidate from
the model's probabilities (`candidate['final_score'] = scores[i]` etc.). -/
def applyScores (cands : List Candidate) (scores : List Rat) : List Candidate :=
  List.zipWith
    (fun c sc =>
      { c with final_score := some sc, ranker_contribution := some (sc - c.initial_score) })
    cands scores

/-- Does `Ranker.predict` take its fallback path? True when no trained model
is available, when scoring raises, or when the scores do not cover every
candidate (the `scores[i]` `IndexError`, caught by the same handler). -/
def fallbackTriggered (r : Ranker) (uid : Nat) (cands : List Candidate) : Bool :=
  match r.model with
  | none => true
  | some f =>
      match f uid cands with
      | .error _ => true
      | .ok scores => decide (scores.length < cands.length)

/-- Embeds `Ranker.predict(user_id, candidates, ...)`: empty input short-circuits;
without a trained model, or on any scoring error, fall back to the stable
descending sort on `initial_score`; otherwise annotate each candidate with
its probability and sort by `final_score` descending. -/
def Ranker.predict (r : Ranker) (uid : Nat) (cands : List Candidate) : List Candidate :=
  if cands.isEmpty then []
  else
    match r.model with
    | none => sortByInitialScoreDesc cands
    | some f =>
        match f uid cands with
        | .error _ => sortByInitialScoreDesc cands
        | .ok scores =>
            if scores.length < cands.length then sortByInitialScoreDesc cands
            else sortByFinalScoreDesc (applyScores cands scores)

/-! ## `ExperimentManager` (src/evaluation/ab_testing.py)

Calendar dates are day ordinals (`Nat`); weights are exact rationals. The
MD5 hash of the string `f"{user_id}:{experiment_id}"` is an external
deterministic function of that string, abstracted as a parameter
`hash : List Char → Nat`; the manager only uses `hash_value % 10000 / 10000`.
Python dicts (`self.experiments`, `groups`) are insertion-ordered
association lists. -/

/-- One group configuration; `weight` is `Option` because the code reads it
with `g.get('weight', 0)`. The strategy-specific parameters (model name,
description, ...) play no role in assignment and are not modelled. -/
structure GroupConfig where
  weight : Option Rat
deriving Repr, DecidableEq

/-- One experiment record as stored in `self.experiments`. -/
structure Experiment where
  name : String
  description : String
  start_date : Option Nat
  end_date : Option Nat
  groups : List (String × GroupConfig)
deriving Repr, DecidableEq

/-- Embeds `_is_experiment_active`: inactive before `start_date` and after
`end_date` (each checked only when set). -/
def isExperimentActive (e : Experiment) (today : Nat) : Bool :=
  (match e.start_date with
   | some s => ! decide (today < s)
   | none => true) &&
  (match e.end_date with
   | some d => ! decide (today > d)
   | none => true)

/-- Embeds `sum(g.get('weight', 0) for g in groups.values())`. -/
def weightSum (groups : List (String × GroupConfig)) : Rat :=
  (groups.map (fun g => g.2.weight.getD 0)).sum

/-- Embeds `create_experiment`: reject unless the group weights sum to a value in
`[0.99, 1.01]`, otherwise register the experiment (a missing `start_date`
defaults to today). The error value is the `ValueError`. -/
def create_experiment (exps : List (List Char × Experiment)) (expId : List Char)
    (name : String) (groups : List (String × GroupConfig)) (description : String)
    (start_date : Option Nat) (end_date : Option Nat) (today : Nat) :
    Except String (List (List Char × Experiment)) :=
  let total := weightSum groups
  if 99 / 100 ≤ total ∧ total ≤ 101 / 100 then
    .ok (assocSet exps expId
      { name := name, description := description
        start_date := some (start_date.getD today), end_date := end_date
        groups := groups })
  else
    .error "Group weights must sum to 1.0"

/-- The normalized bucket value `(hash_value % 10000) / 10000.0` derived from
`f"{user_id}:{experiment_id}"`. -/
def normalizedHash (hash : List Char → Nat) (uid : Nat) (expId : List Char) : Rat :=
  ((hash (natToChars uid ++ ':' :: expId) % 10000 : Nat) : Rat) / 10000

/-- The cumulative-weight walk: return the first group whose cumulative
weight boundary reaches the bucket value. -/
def assignLoop (nh : Rat) (cum : Rat) : List (String × GroupConfig) → Option String
  | [] => none
  | (gname, cfg) :: rest =>
      let cum' := cum + cfg.weight.getD 0
      if nh ≤ cum' then some gname else assignLoop nh cum' rest

/-- Embeds `get_user_group(user_id, experiment_id)`: `None` for an unknown or
inactive experiment; otherwise the cumulative-weight assignment, falling
back to the first configured group when the walk exhausts the groups
(`list(groups.keys())[0]`; `none` in the empty-groups case stands for the
`IndexError` that line would raise). -/
def getUserGroup (hash : List Char → Nat) (exps : List (List Char × Experiment))
    (uid : Nat) (expId : List Char) (today : Nat) : Option String :=
  match assocFind exps expId with
  | none => none
  | some e =>
      if isExperimentActive e today then
        let nh := normalizedHash hash uid expId
        match assignLoop nh 0 e.groups with
        | some g => some g
        | none => e.groups.head?.map Prod.fst
      else none

/-! ## `OnlineLearner` (src/models/online_learner.py)

The models being refreshed are external ML handles: a type parameter `M`
together with an update capability `upd : M → List Feedback → Option M`
(`none` when the model's `fit`/update raised, or — for a hybrid model —
when it lacks the `popularity_model` component, in both of which cases the
model is not counted as updated). -/

/-- One buffered feedback event. -/
structure Feedback where
  user_id : Nat
  item_id : Nat
  rating : Rat
  timestamp : Nat
deriving Repr, DecidableEq

/-- The mutable state of an `OnlineLearner`. -/
structure LearnerState where
  buffer_size : Nat
  auto_update : Bool
  update_interval_minutes : Nat
  feedback_buffer : List Feedback
  last_update_time : Option Nat
  update_count : Nat
  total_feedback_processed : Nat
deriving Repr, DecidableEq

/-- The dictionary `trigger_update` returns. The empty-buffer branch returns
only `updated` and `reason`; the absent keys are the defaults here. -/
structure UpdateResult where
  updated : Bool
  reason : Option String := none
  models_updated : List (List Char) := []
  feedback_count : Nat := 0
  total_updates : Nat := 0
deriving Repr, DecidableEq

/-- Name-based dispatch of `trigger_update`'s per-model loop:
`'collaborative' in model_name.lower()` first, then `'hybrid'`. A model
whose name matches neither is skipped. -/
def updateOneModel {M : Type} (upd : M → List Feedback → Option M)
    (buf : List Feedback) (acc : List (List Char) × List (List Char × M))
    (nm : List Char × M) : List (List Char) × List (List Char × M) :=
  let lowered := nm.1.map Char.toLower
  if (lowered.tails.any (fun t => "collaborative".data.isPrefixOf t)
      || lowered.tails.any (fun t => "hybrid".data.isPrefixOf t)) then
    match upd nm.2 buf with
    | some m' => (acc.1 ++ [nm.1], acc.2 ++ [(nm.1, m')])
    | none => (acc.1, acc.2 ++ [nm])
  else (acc.1, acc.2 ++ [nm])

/-- Embeds `trigger_update(models)`: a no-op reporting `updated: False` on an empty
buffer; otherwise update each matching model (a single model's failure is
caught and skipped), then atomically clear the buffer (`clear_buffer`:
count the processed feedback, record `last_update_time`, bump
`update_count`) and report the update. -/
def trigger_update {M : Type} (upd : M → List Feedback → Option M)
    (s : LearnerState) (models : List (List Char × M)) (now : Nat) :
    UpdateResult × LearnerState × List (List Char × M) :=
  if s.feedback_buffer.isEmpty then
    ({ updated := false, reason := some "Empty buffer" }, s, models)
  else
    let buf := s.feedback_buffer
    let step := models.foldl (updateOneModel upd buf) ([], [])
    let s' : LearnerState :=
      { s with
        feedback_buffer := []
        total_feedback_processed := s.total_feedback_processed + buf.length
        last_update_time := some now
        update_count := s.update_count + 1 }
    ({ updated := true, models_updated := step.1, feedback_count := buf.length
       total_updates := s'.update_count }, s', step.2)

/-! ## `EventProcessor` (src/ingestion/event_processor.py)

The relational store is a list of persisted events plus a user-profile
table. A `UserProfile` row exists only for users whose row is already in the
table: the create branch of `_update_user_profile` never completes, because
the freshly constructed `UserProfile(user_id=..., first_interaction=...)`
still has `None` counter attributes before flush (the
`Column(..., default=0)` defaults of `src/models/database_models.py` apply
only at INSERT), so `profile.total_interactions += 1` raises `TypeError`,
the `except` swallows it and `db.rollback()` discards the pending row. The
wall clock is seconds, so `utcnow().hour` is `now / 3600 % 24`. The
per-event Redis metric counters are a name-to-count table. -/

/-- A persisted `UserEvent` row (the columns the pipeline reads back). -/
structure UserEventR where
  user_id : Nat
  item_id : Nat
  event_type : String
  rating : Option Rat
  timestamp : Nat
  source : String
deriving Repr, DecidableEq

/-- A `UserProfile` row. -/
structure ProfileR where
  total_interactions : Nat
  total_ratings : Nat
  avg_rating : Option Rat
  first_interaction : Option Nat
  last_interaction : Option Nat
  most_active_hour : Option Nat
deriving Repr, DecidableEq

/-- The durable state `process_event` touches: the event table, the profile
table and the event-type metric counters. -/
structure Db where
  events : List UserEventR
  profiles : List (Nat × ProfileR)
  eventTypeCounts : List (String × Nat)
deriving Repr, DecidableEq

/-- The incoming event dictionary; a missing key is `none`. -/
structure EventData where
  user_id : Option Nat
  item_id : Option Nat
  event_type : Option String
  rating : Option Rat
  source : Option String
deriving Repr, DecidableEq

/-- The `rate` events with a non-NULL rating that `_update_user_profile`
averages over (`filter(UserEvent.user_id == user_id, event_type == 'rate',
rating.isnot(None))`). -/
def ratingValues (uid : Nat) (events : List UserEventR) : List Rat :=
  (events.filter (fun e => e.user_id = uid ∧ e.event_type = "rate" ∧ e.rating.isSome)).map
    (fun e => e.rating.getD 0)

/-- Embeds `_update_user_profile`. For an existing profile row: bump
`total_interactions`, update `last_interaction`; when the event is a `rate`
event whose rating is truthy (present and nonzero), bump `total_ratings` and
recompute `avg_rating` as the mean over every persisted non-NULL rating of
that user; finally record `most_active_hour` and commit. For a user without
a row, the code constructs a fresh `UserProfile` whose counter columns are
still `None` before flush, so the very next line
`profile.total_interactions += 1` raises `TypeError`; the `except` swallows
it and rolls the pending row back — no profile is created and the table is
left unchanged. -/
def updateUserProfile (uid : Nat) (ed : EventData) (db : Db) (now : Nat) : Db :=
  match assocFind db.profiles uid with
  | none => db
  | some p =>
      let p1 := { p with total_interactions := p.total_interactions + 1
                         last_interaction := some now }
      let isTruthyRating := match ed.rating with
        | some r => decide (r ≠ 0)
        | none => false
      let p2 :=
        if ed.event_type = some "rate" ∧ isTruthyRating = true then
          let rs := ratingValues uid db.events
          let p' := { p1 with total_ratings := p1.total_ratings + 1 }
          if rs.isEmpty then p' else { p' with avg_rating := some (rs.sum / rs.length) }
        else p1
      let p3 := { p2 with most_active_hour := some (now / 3600 % 24) }
      { db with profiles := assocSet db.profiles uid p3 }

/-- The `UserEvent` row `process_event` persists (defaulted `source`). -/
def mkUserEvent (uid iid : Nat) (et : String) (rating : Option Rat)
    (source : Option String) (now : Nat) : UserEventR :=
  { user_id := uid, item_id := iid, event_type := et, rating := rating
    timestamp := now, source := source.getD "web" }

/-- The result dictionary of `process_event` (`status` plus either the event
id or the error message; only the status is modelled). -/
structure ProcessResult where
  ok : Bool
deriving Repr, DecidableEq

/-- Embeds `process_event(event_data)`: validate the three required fields (a
missing one raises, the transaction rolls back and nothing changes), persist
the event, update the user profile, invalidate that user's cached
recommendations, and bump the event-type metric counter. -/
def process_event {α : Type} (db : Db) (cache : CacheState α) (now : Nat)
    (ed : EventData) : ProcessResult × Db × CacheState α :=
  match ed.user_id, ed.item_id, ed.event_type with
  | some uid, some iid, some et =>
      let ev := mkUserEvent uid iid et ed.rating ed.source now
      let db1 := { db with events := db.events ++ [ev] }
      let db2 := updateUserProfile uid ed db1 now
      let cache' := (invalidate_user_cache cache uid).2
      let db3 := { db2 with
        eventTypeCounts :=
          assocSet db2.eventTypeCounts et ((assocFind db2.eventTypeCounts et).getD 0 + 1) }
      ({ ok := true }, db3, cache')
  | _, _, _ => ({ ok := false }, db, cache)

/-- The `total_ratings` counter observed for a user: that of the stored
row, or `none` when no row exists. -/
def profileTotalRatings (db : Db) (uid : Nat) : Option Nat :=
  (assocFind db.profiles uid).map (fun p => p.total_ratings)

/-- The observed `avg_rating` of a user (`none` when the row is absent, the
row's nullable column otherwise). -/
def profileAvgRating (db : Db) (uid : Nat) : Option (Option Rat) :=
  (assocFind db.profiles uid).map (fun p => p.avg_rating)

/-! ## Concrete inputs used by counterexamples -/

/-- Collaborative oracle of the C3 counterexample: four items, overlapping
the other sources. -/
def cfCx : Oracle := ⟨true, [⟨1, "", 0⟩, ⟨2, "", 0⟩, ⟨3, "", 0⟩, ⟨4, "", 0⟩]⟩

/-- Content-based oracle of the C3 counterexample: three items, all already
supplied by the collaborative source. -/
def cbCx : Oracle := ⟨true, [⟨1, "", 0⟩, ⟨2, "", 0⟩, ⟨3, "", 0⟩]⟩

/-- Popularity oracle of the C3 counterexample: ten items ranked so that its
head overlaps the items already collected. -/
def popCx : Oracle :=
  ⟨true, [⟨1, "", 0⟩, ⟨2, "", 0⟩, ⟨3, "", 0⟩, ⟨4, "", 0⟩, ⟨5, "", 0⟩,
          ⟨6, "", 0⟩, ⟨7, "", 0⟩, ⟨8, "", 0⟩, ⟨9, "", 0⟩, ⟨10, "", 0⟩]⟩

/-- Database of the C7 counterexample: user 42 already has one persisted
rating and a profile with `total_ratings = 1`. -/
def dbCx : Db :=
  { events := [⟨42, 7, "rate", some 4, 0, "web"⟩]
    profiles := [(42, ⟨5, 1, some 4, some 0, some 0, some 0⟩)]
    eventTypeCounts := [] }

/-- Incoming event of the C7 counterexample: a `rate` event whose rating
value is `0.0` (falsy in Python). -/
def edCx : EventData :=
  { user_id := some 42, item_id := some 7, event_type := some "rate"
    rating := some 0, source := none }

/-- An empty cache (no Redis) for the C7 counterexample. -/
def cacheCx : CacheState Nat := { redis := none, mem := [] }

/-! # Helper lemmas -/

theorem assocFind_assocSet_self {κ β : Type} [DecidableEq κ]
    (l : List (κ × β)) (k : κ) (v : β) : assocFind (assocSet l k v) k = some v := by
  induction l with
  | nil => simp [assocSet, assocFind]
  | cons hd tl ih =>
      by_cases h : hd.1 = k
      · simp [assocSet, assocFind, h]
      · simp [assocSet, assocFind, h, ih]

theorem assocFind_filter_of_match {κ β : Type} [DecidableEq κ]
    (l : List (κ × β)) (p : κ → Bool) (k : κ) (hk : p k = false) :
    assocFind (l.filter (fun kv => p kv.1)) k = none := by
  induction l with
  | nil => simp [assocFind]
  | cons hd tl ih =>
      by_cases h : p hd.1 = true
      · by_cases hhd : hd.1 = k
        · rw [hhd] at h; rw [hk] at h; cases h
        · simp [List.filter_cons, h, assocFind, hhd, ih]
      · simp only [Bool.not_eq_true] at h
        simp [List.filter_cons, h, ih]

theorem assocFind_filter_of_keep {κ β : Type} [DecidableEq κ]
    (l : List (κ × β)) (p : κ → Bool) (k : κ) (hk : p k = true) :
    assocFind (l.filter (fun kv => p kv.1)) k = assocFind l k := by
  induction l with
  | nil => simp
  | cons hd tl ih =>
      by_cases hhd : hd.1 = k
      · subst hhd
        simp [List.filter_cons, hk, assocFind]
      · by_cases h : p hd.1 = true
        · simp [List.filter_cons, h, assocFind, hhd, ih]
        · simp only [Bool.not_eq_true] at h
          simp [List.filter_cons, h, assocFind, hhd, ih]

theorem charVal_digitChar {d : Nat} (h : d < 10) : charVal (digitChar d) = d := by
  interval_cases d <;> decide

theorem digitChar_ne_colon {d : Nat} (h : d < 10) : digitChar d ≠ ':' := by
  interval_cases d <;> decide

theorem charsToNat_natToChars (n : Nat) : charsToNat (natToChars n) = n := by
  induction n using Nat.strong_induction_on with
  | _ n ih =>
      rw [natToChars]
      by_cases h : n < 10
      · simp only [h, dif_pos]
        simp [charsToNat, charVal_digitChar h]
      · simp only [h, dif_neg, not_false_iff]
        have hlt : n / 10 < n :=
          Nat.div_lt_self (Nat.lt_of_lt_of_le (by norm_num) (Nat.le_of_not_lt h)) (by norm_num)
        have hmod : n % 10 < 10 := Nat.mod_lt _ (by norm_num)
        simp only [charsToNat, List.foldl_append, List.foldl_cons, List.foldl_nil]
        have := ih (n / 10) hlt
        simp only [charsToNat] at this
        rw [this, charVal_digitChar hmod]
        exact Nat.div_add_mod n 10

theorem natToChars_inj {m n : Nat} (h : natToChars m = natToChars n) : m = n := by
  have := congrArg charsToNat h
  rwa [charsToNat_natToChars, charsToNat_natToChars] at this

theorem natToChars_colonFree (n : Nat) : ∀ c ∈ natToChars n, c ≠ ':' := by
  induction n using Nat.strong_induction_on with
  | _ n ih =>
      rw [natToChars]
      by_cases h : n < 10
      · simp only [h, dif_pos, List.mem_singleton]
        intro c hc
        subst hc
        exact digitChar_ne_colon h
      · simp only [h, dif_neg, not_false_iff, List.mem_append, List.mem_singleton]
        intro c hc
        rcases hc with hc | hc
        · exact ih (n / 10)
            (Nat.div_lt_self (Nat.lt_of_lt_of_le (by norm_num) (Nat.le_of_not_lt h))
              (by norm_num)) c hc
        · subst hc
          exact digitChar_ne_colon (Nat.mod_lt _ (by norm_num))

theorem append_left_cancel_isPre {α : Type} {p a b : List α} :
    (p ++ a) <+: (p ++ b) ↔ a <+: b := by
  constructor
  · rintro ⟨t, ht⟩
    refine ⟨t, ?_⟩
    rw [List.append_assoc] at ht
    exact List.append_cancel_left ht
  · rintro ⟨t, ht⟩
    exact ⟨t, by rw [List.append_assoc, ht]⟩

theorem colonfree_seg_eq :
    ∀ (a b x y : List Char), (∀ c ∈ a, c ≠ ':') → (∀ c ∈ b, c ≠ ':') →
    (a ++ ':' :: x) <+: (b ++ ':' :: y) → a = b := by
  intro a
  induction a with
  | nil =>
      intro b x y _ hb hpre
      cases b with
      | nil => rfl
      | cons d b' =>
          simp only [List.nil_append, List.cons_append] at hpre
          rcases (List.cons_prefix_cons.mp hpre) with ⟨hd, _⟩
          exact absurd hd.symm (hb d (by simp))
  | cons c a' ih =>
      intro b x y ha hb hpre
      cases b with
      | nil =>
          simp only [List.cons_append, List.nil_append] at hpre
          rcases (List.cons_prefix_cons.mp hpre) with ⟨hd, _⟩
          exact absurd hd (ha c (by simp))
      | cons d b' =>
          simp only [List.cons_append] at hpre
          rcases (List.cons_prefix_cons.mp hpre) with ⟨hd, htl⟩
          have : a' = b' :=
            ih b' x y (fun e he => ha e (by simp [he])) (fun e he => hb e (by simp [he])) htl
          rw [hd, this]

theorem userKeyPat_isPre_self (u : Nat) (mt : List Char) (n : Nat) :
    (userKeyPat u).isPrefixOf (cacheKey u mt n) = true := by
  rw [List.isPrefixOf_iff_prefix]
  refine ⟨"model:".data ++ mt ++ ":n:".data ++ natToChars n, ?_⟩
  show userKeyPat u ++ _ = cacheKey u mt n
  simp only [userKeyPat, cacheKey, List.append_assoc]
  rfl

theorem userKeyPat_not_isPre {u v : Nat} (huv : u ≠ v) (mt : List Char) (n : Nat) :
    (userKeyPat u).isPrefixOf (cacheKey v mt n) = false := by
  rw [← Bool.not_eq_true, List.isPrefixOf_iff_prefix]
  intro hpre
  apply huv
  apply natToChars_inj
  have h1 : userKeyPat u = "rec:user:".data ++ (natToChars u ++ ':' :: []) := by
    simp [userKeyPat]
  have h2 : cacheKey v mt n
      = "rec:user:".data ++ (natToChars v ++ ':' :: ("model:".data ++ mt ++ ":n:".data ++ natToChars n)) := by
    simp only [cacheKey, List.append_assoc]
    rfl
  rw [h1, h2, append_left_cancel_isPre] at hpre
  exact colonfree_seg_eq _ _ _ _ (natToChars_colonFree u) (natToChars_colonFree v) hpre

/-! # Claims -/

/-- C2. For every user_id, model_type, n, and recommendation list, a
successful `set_recommendations` followed by `get_recommendations` with the
identical `(user_id, model_type, n)` returns exactly the stored list as long
as the current time is before the entry's `expires_at`
(= set time + effective ttl); once the current time is at or past
`expires_at`, `get_recommendations` returns `none`. -/
theorem C2_cache_set_then_get {α : Type} (s : CacheState α) (now0 uid : Nat)
    (mt : List Char) (recs : List α) (n : Nat) (ttl? : Option Nat) (now1 : Nat) :
    (set_recommendations s now0 uid mt recs n ttl?).1 = true ∧
    (get_recommendations (set_recommendations s now0 uid mt recs n ttl?).2 now1 uid mt n).1
      = if now1 < now0 + effectiveTtl ttl? then some recs else none := by
  refine ⟨rfl, ?_⟩
  by_cases hlt : now1 < now0 + effectiveTtl ttl?
  · rw [if_pos hlt]
    cases hr : s.redis with
    | none =>
        simp [set_recommendations, get_recommendations, hr,
          assocFind_assocSet_self, isCacheValid, hlt]
    | some r =>
        simp [set_recommendations, get_recommendations, hr, redisGet,
          assocFind_assocSet_self, isCacheValid, hlt]
  · rw [if_neg hlt]
    cases hr : s.redis with
    | none =>
        simp [set_recommendations, get_recommendations, hr,
          assocFind_assocSet_self, isCacheValid, hlt]
    | some r =>
        simp [set_recommendations, get_recommendations, hr, redisGet,
          assocFind_assocSet_self, isCacheValid, hlt]

/-- C6. After `invalidate_user_cache(u)`: a `get_recommendations(u, mt, n)`
for any model_type and n returns `none`, while every cache entry belonging
to a different user `v` is left untouched in both tiers (same stored entry)
and a `get_recommendations` for `v` returns exactly what it returned on the
pre-invalidation state. -/
theorem C6_invalidate_user_frame {α : Type} (s : CacheState α) (u v : Nat)
    (hne : v ≠ u) (mt : List Char) (n : Nat) (now : Nat) :
    (invalidate_user_cache s u).1 = true ∧
    (get_recommendations (invalidate_user_cache s u).2 now u mt n).1 = none ∧
    assocFind (invalidate_user_cache s u).2.mem (cacheKey v mt n)
      = assocFind s.mem (cacheKey v mt n) ∧
    (∀ r, s.redis = some r →
      assocFind (r.filter (fun kv => ! (userKeyPat u).isPrefixOf kv.1)) (cacheKey v mt n)
        = assocFind r (cacheKey v mt n)) ∧
    (get_recommendations (invalidate_user_cache s u).2 now v mt n).1
      = (get_recommendations s now v mt n).1 := by
  have hkeepP : (fun k => ! (userKeyPat u).isPrefixOf k) (cacheKey v mt n) = true := by
    simp [userKeyPat_not_isPre (Ne.symm hne) mt n]
  have hdropP : (fun k => ! (userKeyPat u).isPrefixOf k) (cacheKey u mt n) = false := by
    simp [userKeyPat_isPre_self u mt n]
  have hmemKeep :
      assocFind (s.mem.filter (fun kv => ! (userKeyPat u).isPrefixOf kv.1)) (cacheKey v mt n)
        = assocFind s.mem (cacheKey v mt n) :=
    assocFind_filter_of_keep s.mem (fun k => ! (userKeyPat u).isPrefixOf k) _ hkeepP
  have hmemDrop :
      assocFind (s.mem.filter (fun kv => ! (userKeyPat u).isPrefixOf kv.1)) (cacheKey u mt n)
        = none :=
    assocFind_filter_of_match s.mem (fun k => ! (userKeyPat u).isPrefixOf k) _ hdropP
  refine ⟨rfl, ?_, ?_, ?_, ?_⟩
  · cases hr : s.redis with
    | none =>
        simp [invalidate_user_cache, get_recommendations, hr, hmemDrop]
    | some r =>
        have hrDrop :
            assocFind (r.filter (fun kv => ! (userKeyPat u).isPrefixOf kv.1)) (cacheKey u mt n)
              = none :=
          assocFind_filter_of_match r (fun k => ! (userKeyPat u).isPrefixOf k) _ hdropP
        simp [invalidate_user_cache, get_recommendations, hr, redisGet, hrDrop, hmemDrop]
  · exact hmemKeep
  · intro r _
    exact assocFind_filter_of_keep r (fun k => ! (userKeyPat u).isPrefixOf k) _ hkeepP
  · cases hr : s.redis with
    | none =>
        simp only [invalidate_user_cache, get_recommendations, hr, Option.map_none']
        rw [hmemKeep]
        cases hfind : assocFind s.mem (cacheKey v mt n) with
        | none => simp
        | some d => by_cases hc : isCacheValid d now <;> simp [hc]
    | some r =>
        have hrKeep :
            assocFind (r.filter (fun kv => ! (userKeyPat u).isPrefixOf kv.1)) (cacheKey v mt n)
              = assocFind r (cacheKey v mt n) :=
          assocFind_filter_of_keep r (fun k => ! (userKeyPat u).isPrefixOf k) _ hkeepP
        simp only [invalidate_user_cache, get_recommendations, hr, Option.map_some']
        rw [show redisGet (r.filter (fun kv => ! (userKeyPat u).isPrefixOf kv.1)) now
              (cacheKey v mt n) = redisGet r now (cacheKey v mt n) by
            simp [redisGet, hrKeep]]
        cases hrg : redisGet r now (cacheKey v mt n) with
        | none =>
            rw [hmemKeep]
            cases hfind : assocFind s.mem (cacheKey v mt n) with
            | none => simp
            | some d => by_cases hc : isCacheValid d now <;> simp [hc]
        | some data =>
            by_cases hv : isCacheValid data now
            · simp [hv]
            · simp only [hv, Bool.false_eq_true, if_false]
              rw [hmemKeep]
              cases hfind : assocFind s.mem (cacheKey v mt n) with
              | none => simp
              | some d => by_cases hc : isCacheValid d now <;> simp [hc]

/-- Witness for C6 at a concrete input. -/
theorem C6_witness :
    (get_recommendations
      ((invalidate_user_cache (⟨none, []⟩ : CacheState Nat) 1).2) 0 1 [] 0).1 = none :=
  (C6_invalidate_user_frame (⟨none, []⟩ : CacheState Nat) 1 2 (by decide) [] 0 0).2.1

theorem find?_foldl_insertCand (i : Nat) :
    ∀ (l acc : List Candidate),
      (List.foldl insertCand acc l).find? (fun c => c.item_id == i)
        = ((acc.find? (fun c => c.item_id == i)).or (l.find? (fun c => c.item_id == i))) := by
  intro l
  induction l with
  | nil => intro acc; simp
  | cons c l' ih =>
      intro acc
      rw [List.foldl_cons, ih (insertCand acc c)]
      by_cases hpc : (c.item_id == i) = true
      · have hci : c.item_id = i := by simpa using hpc
        by_cases hacc : acc.any (fun x => x.item_id == c.item_id) = true
        · rcases List.any_eq_true.mp hacc with ⟨x, hx, hxc⟩
          have hsome : (acc.find? (fun c => c.item_id == i)).isSome := by
            refine List.find?_isSome.mpr ⟨x, hx, ?_⟩
            simp only [Nat.beq_eq_true_eq] at hxc ⊢
            rw [hxc, hci]
          rcases Option.isSome_iff_exists.mp hsome with ⟨a, ha⟩
          simp [insertCand, hacc, ha, Option.or]
        · have hnone : acc.find? (fun c => c.item_id == i) = none := by
            refine List.find?_eq_none.mpr (fun x hx => ?_)
            intro hxp
            apply hacc
            refine List.any_eq_true.mpr ⟨x, hx, ?_⟩
            simp only [Nat.beq_eq_true_eq] at hxp ⊢
            rw [hxp, hci]
          have hcons : (c :: l').find? (fun c => c.item_id == i) = some c := by
            simp [List.find?_cons, hpc]
          have h1 : List.find? (fun c => c.item_id == i) [c] = some c := by
            simp [List.find?_cons, hpc]
          rw [insertCand, if_neg (by simp [hacc]), List.find?_append, hnone, hcons, h1]
          simp [Option.or]
      · have hfc : (c :: l').find? (fun c => c.item_id == i) = l'.find? (fun c => c.item_id == i) := by
          rw [List.find?_cons]
          simp only [Bool.not_eq_true] at hpc
          rw [hpc]
        rw [hfc]
        by_cases hacc : acc.any (fun x => x.item_id == c.item_id) = true
        · simp [insertCand, hacc]
        · rw [insertCand, if_neg (by simp [hacc]), List.find?_append]
          have : List.find? (fun c => c.item_id == i) [c] = none := by
            simp only [Bool.not_eq_true] at hpc
            simp [List.find?_cons, hpc]
          rw [this]
          simp

theorem pairwise_foldl_insertCand :
    ∀ (l acc : List Candidate),
      acc.Pairwise (fun a b => a.item_id ≠ b.item_id) →
      (List.foldl insertCand acc l).Pairwise (fun a b => a.item_id ≠ b.item_id) := by
  intro l
  induction l with
  | nil => intro acc h; simpa using h
  | cons c l' ih =>
      intro acc h
      rw [List.foldl_cons]
      apply ih
      by_cases hacc : acc.any (fun x => x.item_id == c.item_id) = true
      · simpa [insertCand, hacc] using h
      · rw [insertCand, if_neg (by simp [hacc])]
        rw [List.pairwise_append]
        refine ⟨h, by simp, ?_⟩
        intro a ha b hb
        have hb' : b = c := by simpa using hb
        subst hb'
        intro heq
        apply hacc
        exact List.any_eq_true.mpr ⟨a, ha, by simp [heq]⟩

theorem getCandidates_eq_foldl (cf cb pop : Oracle) (uid n : Nat) :
    getCandidates cf cb pop uid n = List.foldl insertCand [] (taggedAll cf cb pop n) := by
  simp [getCandidates, taggedAll, popTagged, popQuota, cfTagged, cbTagged, List.foldl_append]

theorem pool_pairwise_ne (cf cb pop : Oracle) (uid n : Nat) :
    (getCandidates cf cb pop uid n).Pairwise (fun a b => a.item_id ≠ b.item_id) := by
  rw [getCandidates_eq_foldl]
  exact pairwise_foldl_insertCand _ [] (by simp)

theorem pool_find_eq (cf cb pop : Oracle) (uid n : Nat) (i : Nat) :
    (getCandidates cf cb pop uid n).find? (fun c => c.item_id == i)
      = (taggedAll cf cb pop n).find? (fun c => c.item_id == i) := by
  rw [getCandidates_eq_foldl, find?_foldl_insertCand i (taggedAll cf cb pop n) []]
  simp

/-- C4. `get_candidates` never returns two candidates with the same
`item_id`, and the candidate kept for an `item_id` supplied by several
sources is exactly the first-seen one in the fixed priority order
collaborative, content-based, popularity — including its source tag and
metadata (`find?` returns the whole first matching candidate on both
sides). -/
theorem C4_dedup_first_source_wins (cf cb pop : Oracle) (uid n : Nat) :
    (getCandidates cf cb pop uid n).Pairwise (fun a b => a.item_id ≠ b.item_id) ∧
    ∀ i : Nat,
      (getCandidates cf cb pop uid n).find? (fun c => c.item_id == i)
        = (taggedAll cf cb pop n).find? (fun c => c.item_id == i) :=
  ⟨pool_pairwise_ne cf cb pop uid n, pool_find_eq cf cb pop uid n⟩

theorem nodup_length_eq_of_mem_iff {l₁ l₂ : List Nat} (d₁ : l₁.Nodup) (d₂ : l₂.Nodup)
    (h : ∀ a, a ∈ l₁ ↔ a ∈ l₂) : l₁.length = l₂.length :=
  Nat.le_antisymm
    (List.Subperm.length_le (List.subperm_of_subset d₁ (fun a ha => (h a).mp ha)))
    (List.Subperm.length_le (List.subperm_of_subset d₂ (fun a ha => (h a).mpr ha)))

theorem mem_pool_iff_mem_tagged (cf cb pop : Oracle) (uid n : Nat) (i : Nat) :
    (i ∈ (getCandidates cf cb pop uid n).map (fun c => c.item_id))
      ↔ i ∈ (taggedAll cf cb pop n).map (fun c => c.item_id) := by
  have hfind := pool_find_eq cf cb pop uid n i
  constructor
  · intro hm
    rcases List.mem_map.mp hm with ⟨c, hc, hci⟩
    have : ((getCandidates cf cb pop uid n).find? (fun c => c.item_id == i)).isSome :=
      List.find?_isSome.mpr ⟨c, hc, by simp [hci]⟩
    rw [hfind] at this
    rcases List.find?_isSome.mp this with ⟨c', hc', hc'i⟩
    exact List.mem_map.mpr ⟨c', hc', by simpa using hc'i⟩
  · intro hm
    rcases List.mem_map.mp hm with ⟨c, hc, hci⟩
    have : ((taggedAll cf cb pop n).find? (fun c => c.item_id == i)).isSome :=
      List.find?_isSome.mpr ⟨c, hc, by simp [hci]⟩
    rw [← hfind] at this
    rcases List.find?_isSome.mp this with ⟨c', hc', hc'i⟩
    exact List.mem_map.mpr ⟨c', hc', by simpa using hc'i⟩

/-- C3 (amended). The pool `get_candidates` returns has exactly as many
candidates as there are distinct `item_id`s across the lists the three
sources actually return (collaborative's `int(0.4 n)` items, content-based's
`int(0.3 n)` items, popularity's `max(int(0.3 n), n - collected)` items);
in particular it is at least `min n_candidates` of that distinct count. It
is *not* in general at least `min(n_candidates, distinct items available in
the inventories)` — see the counterexample. -/
theorem C3_pool_size_amended (cf cb pop : Oracle) (uid n : Nat) :
    (getCandidates cf cb pop uid n).length
      = ((taggedAll cf cb pop n).map (fun c => c.item_id)).dedup.length ∧
    min n (((taggedAll cf cb pop n).map (fun c => c.item_id)).dedup.length)
      ≤ (getCandidates cf cb pop uid n).length := by
  have hpair := pool_pairwise_ne cf cb pop uid n
  have hnd : ((getCandidates cf cb pop uid n).map (fun c => c.item_id)).Nodup :=
    List.pairwise_map.mpr hpair
  have hlen :
      (getCandidates cf cb pop uid n).length
        = ((taggedAll cf cb pop n).map (fun c => c.item_id)).dedup.length := by
    have h1 : (getCandidates cf cb pop uid n).length
        = ((getCandidates cf cb pop uid n).map (fun c => c.item_id)).length := by
      rw [List.length_map]
    rw [h1]
    refine nodup_length_eq_of_mem_iff hnd (List.nodup_dedup _) (fun a => ?_)
    rw [List.mem_dedup]
    exact mem_pool_iff_mem_tagged cf cb pop uid n a
  exact ⟨hlen, by rw [hlen]; exact Nat.min_le_right _ _⟩

/-- C3 counterexample: three fitted oracles with fixed inventories (ten
distinct items available in total) for which `get_candidates(user, 10)`
returns only 6 candidates — strictly fewer than
`min(n_candidates, distinct items available across the three sources)`.
Overlap between the sources' returned heads makes popularity's gap-filling
quota insufficient, refuting the claim as stated. -/
theorem C3_counterexample :
    (getCandidates cfCx cbCx popCx 1 10).length
      < min 10 (((cfCx.inv ++ cbCx.inv ++ popCx.inv).map (fun r => r.item_id)).dedup.length) := by
  decide

/-- C5. Whenever `Ranker.predict` has no trained model, or feature
extraction / scoring raises (including a score vector that does not cover
every candidate), it returns exactly the input candidates stably sorted by
`initial_score` descending — a permutation of the input, sorted — and never
fails out of the request path (it is a total function of its inputs). -/
theorem C5_ranker_fallback (r : Ranker) (uid : Nat) (cands : List Candidate)
    (h : fallbackTriggered r uid cands = true) :
    r.predict uid cands = sortByInitialScoreDesc cands ∧
    (r.predict uid cands).Perm cands ∧
    List.Sorted (fun a b => b.initial_score ≤ a.initial_score) (r.predict uid cands) := by
  have heq : r.predict uid cands = sortByInitialScoreDesc cands := by
    by_cases he : cands.isEmpty
    · have hnil : cands = [] := List.isEmpty_iff.mp he
      subst hnil
      simp [Ranker.predict, sortByInitialScoreDesc, List.insertionSort]
    · cases hm : r.model with
      | none => simp [Ranker.predict, hm, he]
      | some f =>
          cases hf : f uid cands with
          | error e => simp [Ranker.predict, hm, hf, he]
          | ok scores =>
              have hshort : scores.length < cands.length := by
                have hh := h
                simp only [fallbackTriggered, hm, hf] at hh
                exact of_decide_eq_true hh
              simp [Ranker.predict, hm, hf, he, hshort]
  refine ⟨heq, ?_, ?_⟩
  · rw [heq]
    exact List.perm_insertionSort _ _
  · rw [heq]
    exact List.sorted_insertionSort _ _

/-- Witness for C5 at a concrete input: an untrained ranker on two
candidates. -/
theorem C5_witness :
    Ranker.predict ⟨none⟩ 0
        [{ item_id := 1, title := "", score := 0, source := "", initial_score := 1 },
         { item_id := 2, title := "", score := 0, source := "", initial_score := 2 }]
      = sortByInitialScoreDesc
        [{ item_id := 1, title := "", score := 0, source := "", initial_score := 1 },
         { item_id := 2, title := "", score := 0, source := "", initial_score := 2 }] :=
  (C5_ranker_fallback ⟨none⟩ 0
    [{ item_id := 1, title := "", score := 0, source := "", initial_score := 1 },
     { item_id := 2, title := "", score := 0, source := "", initial_score := 2 }] rfl).1

/-- The cumulative-weight walk never reaches the bucket value when every
weight is non-negative and the remaining total weight stays below it. -/
theorem assignLoop_eq_none_of_sum_lt (nh : Rat) :
    ∀ (l : List (String × GroupConfig)) (cum : Rat),
      (∀ gc ∈ l, 0 ≤ gc.2.weight.getD 0) → cum + weightSum l < nh →
      assignLoop nh cum l = none := by
  intro l
  induction l with
  | nil => intro cum _ _; rfl
  | cons g rest ih =>
      intro cum hnn hlt
      have hsum : weightSum (g :: rest) = g.2.weight.getD 0 + weightSum rest := by
        simp [weightSum]
      have hrest_nn : 0 ≤ weightSum rest := by
        apply List.sum_nonneg
        intro x hx
        rcases List.mem_map.mp hx with ⟨gc, hgc, hgx⟩
        rw [← hgx]
        exact hnn gc (by simp [hgc])
      have hnotle : ¬ nh ≤ cum + g.2.weight.getD 0 := by
        intro hle
        have h1 : cum + g.2.weight.getD 0 + weightSum rest < nh := by
          rw [hsum] at hlt
          linarith
        linarith
      rw [assignLoop, if_neg hnotle]
      apply ih
      · intro gc hgc
        exact hnn gc (by simp [hgc])
      · rw [hsum] at hlt
        linarith

/-- On a non-empty group list, assignment always produces a group: either
the walk hits a boundary or the fallback returns the first group. -/
theorem getUserGroup_isSome_of_nonempty (hash : List Char → Nat)
    (exps : List (List Char × Experiment)) (uid : Nat) (expId : List Char)
    (today : Nat) (e : Experiment) (hfind : assocFind exps expId = some e)
    (hact : isExperimentActive e today = true) (hne : e.groups ≠ []) :
    (getUserGroup hash exps uid expId today).isSome = true := by
  rw [getUserGroup, hfind]
  simp only [hact, if_true]
  cases hal : assignLoop (normalizedHash hash uid expId) 0 e.groups with
  | some g => simp
  | none =>
      cases hg : e.groups with
      | nil => exact absurd hg hne
      | cons g0 gs => simp [hg]

/-- C10 (implicit). For every user and every experiment that exists, is
currently active and has at least one configured group, `get_user_group`
returns some group name — never `None`; moreover with non-negative weights
whose sum falls below the user's normalized bucket value, the fallback
returns the first configured group. -/
theorem C10_always_assigns (hash : List Char → Nat)
    (exps : List (List Char × Experiment)) (uid : Nat) (expId : List Char)
    (today : Nat) (e : Experiment) (g0 : String × GroupConfig)
    (gs : List (String × GroupConfig)) (hfind : assocFind exps expId = some e)
    (hact : isExperimentActive e today = true) (hg : e.groups = g0 :: gs) :
    (∃ g, getUserGroup hash exps uid expId today = some g) ∧
    ((∀ gc ∈ e.groups, 0 ≤ gc.2.weight.getD 0) →
      weightSum e.groups < normalizedHash hash uid expId →
      getUserGroup hash exps uid expId today = some g0.1) := by
  constructor
  · have := getUserGroup_isSome_of_nonempty hash exps uid expId today e hfind hact
      (by rw [hg]; exact List.cons_ne_nil _ _)
    exact Option.isSome_iff_exists.mp this
  · intro hnn hlt
    have hnone : assignLoop (normalizedHash hash uid expId) 0 e.groups = none := by
      apply assignLoop_eq_none_of_sum_lt
      · exact hnn
      · rw [zero_add]
        exact hlt
    rw [getUserGroup, hfind]
    simp only [hact, if_true, hnone]
    rw [hg]
    rfl

/-- Witness for C10 at a concrete input: an active two-group experiment. -/
theorem C10_witness :
    ∃ g, getUserGroup (fun _ => 0)
      [("e".data,
        { name := "", description := "", start_date := some 0, end_date := none
          groups := [("control", ⟨some (1 / 2)⟩), ("treatment", ⟨some (1 / 2)⟩)] })]
      1 "e".data 5 = some g :=
  (C10_always_assigns (fun _ => 0)
    [("e".data,
      { name := "", description := "", start_date := some 0, end_date := none
        groups := [("control", ⟨some (1 / 2)⟩), ("treatment", ⟨some (1 / 2)⟩)] })]
    1 "e".data 5
    { name := "", description := "", start_date := some 0, end_date := none
      groups := [("control", ⟨some (1 / 2)⟩), ("treatment", ⟨some (1 / 2)⟩)] }
    ("control", ⟨some (1 / 2)⟩) [("treatment", ⟨some (1 / 2)⟩)]
    (by simp [assocFind]) (by decide) rfl).1

/-- C1. Group assignment is a deterministic function of the user, the
experiment id and the (unchanged) configuration: two calls whose evaluation
dates give the stored experiment the same activation status return the same
group. No other state enters the computation — the state visible to
`get_user_group` is exactly the experiment table passed here. -/
theorem C1_assignment_deterministic (hash : List Char → Nat)
    (exps : List (List Char × Experiment)) (uid : Nat) (expId : List Char)
    (d1 d2 : Nat)
    (hact : ∀ e, assocFind exps expId = some e →
      isExperimentActive e d1 = isExperimentActive e d2) :
    getUserGroup hash exps uid expId d1 = getUserGroup hash exps uid expId d2 := by
  cases hfind : assocFind exps expId with
  | none => rw [getUserGroup, getUserGroup, hfind]
  | some e => simp only [getUserGroup, hfind, hact e hfind]

/-- Witness for C1 at a concrete input: the same experiment looked up on two
different days inside its activation window. -/
theorem C1_witness :
    getUserGroup (fun _ => 0)
      [("e".data,
        { name := "", description := "", start_date := some 0, end_date := none
          groups := [("control", ⟨some 1⟩)] })] 7 "e".data 5
    = getUserGroup (fun _ => 0)
      [("e".data,
        { name := "", description := "", start_date := some 0, end_date := none
          groups := [("control", ⟨some 1⟩)] })] 7 "e".data 6 :=
  C1_assignment_deterministic (fun _ => 0) _ 7 "e".data 5 6
    (by
      intro e h
      simp [assocFind] at h
      subst h
      decide)

/-- C8. `create_experiment` rejects exactly the configurations whose weight
sum lies outside `[0.99, 1.01]` (raising without registering anything) and
registers the experiment otherwise; the weight sum is never re-validated on
lookups — `get_user_group` assigns a group for an active non-empty
experiment no matter what its stored weights sum to. -/
theorem C8_creation_validation (exps : List (List Char × Experiment))
    (expId : List Char) (name : String) (groups : List (String × GroupConfig))
    (description : String) (sd ed : Option Nat) (today : Nat) :
    (¬ (99 / 100 ≤ weightSum groups ∧ weightSum groups ≤ 101 / 100) →
      (create_experiment exps expId name groups description sd ed today).isOk = false) ∧
    ((99 / 100 ≤ weightSum groups ∧ weightSum groups ≤ 101 / 100) →
      create_experiment exps expId name groups description sd ed today
        = .ok (assocSet exps expId
            { name := name, description := description
              start_date := some (sd.getD today), end_date := ed, groups := groups }) ∧
      assocFind (assocSet exps expId
            { name := name, description := description
              start_date := some (sd.getD today), end_date := ed, groups := groups }) expId
        = some { name := name, description := description
                 start_date := some (sd.getD today), end_date := ed, groups := groups }) ∧
    (∀ (hash : List Char → Nat) (uid d : Nat) (e : Experiment),
      assocFind exps expId = some e → isExperimentActive e d = true →
      e.groups ≠ [] → (getUserGroup hash exps uid expId d).isSome = true) := by
  refine ⟨?_, ?_, ?_⟩
  · intro hout
    rw [create_experiment, if_neg hout]
    rfl
  · intro hin
    refine ⟨?_, assocFind_assocSet_self _ _ _⟩
    rw [create_experiment, if_pos hin]
  · intro hash uid d e hfind hact hne
    exact getUserGroup_isSome_of_nonempty hash exps uid expId d e hfind hact hne

/-- Witness for C8 at a concrete input: weights summing to 1 are accepted
and registered; weights summing to 2 are rejected. -/
theorem C8_witness :
    (create_experiment [] "e".data "" [("control", ⟨some 1⟩)] "" none none 0
      = .ok (assocSet [] "e".data
          { name := "", description := "", start_date := some 0, end_date := none
            groups := [("control", ⟨some 1⟩)] })) ∧
    (create_experiment [] "x".data "" [("a", ⟨some 2⟩)] "" none none 0).isOk = false :=
  ⟨((C8_creation_validation [] "e".data "" [("control", ⟨some 1⟩)] "" none none 0).2.1
      (by constructor <;> norm_num [weightSum])).1,
   (C8_creation_validation [] "x".data "" [("a", ⟨some 2⟩)] "" none none 0).1
      (by norm_num [weightSum])⟩

/-- C9. `trigger_update` on an empty feedback buffer reports
`updated = false` (with reason `Empty buffer`), performs no model update and
leaves both the learner state (buffer, update_count, last_update_time,
total_feedback_processed) and the models mapping exactly unchanged. -/
theorem C9_trigger_update_empty_noop {M : Type} (upd : M → List Feedback → Option M)
    (s : LearnerState) (models : List (List Char × M)) (now : Nat)
    (h : s.feedback_buffer = []) :
    trigger_update upd s models now
      = ({ updated := false, reason := some "Empty buffer" }, s, models) := by
  rw [trigger_update]
  simp [h]

/-- Witness for C9 at a concrete input. -/
theorem C9_witness :
    trigger_update (fun (_ : Unit) (_ : List Feedback) => none)
        ⟨10, true, 60, [], none, 0, 0⟩ [] 0
      = ({ updated := false, reason := some "Empty buffer" },
         ⟨10, true, 60, [], none, 0, 0⟩, []) :=
  C9_trigger_update_empty_noop (fun _ _ => none) ⟨10, true, 60, [], none, 0, 0⟩ [] 0 rfl

/-- C7 (amended). For a user that already has a `UserProfile` row,
successfully ingesting one `rate` event with a present, *nonzero* rating
through `process_event` persists the event, increments that row's
`total_ratings` by exactly one, and sets `avg_rating` to exactly the
arithmetic mean over all of that user's persisted rating events (those with
a non-NULL rating), including the new one. Two error paths keep the original
claim from holding in general: a rating of `0.0` fails the truthiness guard
`event_data.get('rating')`, and for a user without an existing row the
profile-creation branch dies on `None + 1` and is rolled back — see the
counterexample. -/
theorem updateUserProfile_events_eq (uid : Nat) (ed : EventData) (db : Db) (now : Nat) :
    (updateUserProfile uid ed db now).events = db.events := by
  rw [updateUserProfile]
  cases assocFind db.profiles uid <;> rfl

theorem C7_rating_ingest_updates_profile {α : Type} (db : Db) (cache : CacheState α)
    (now : Nat) (ed : EventData) (uid iid : Nat) (q : Rat) (p0 : ProfileR)
    (hu : ed.user_id = some uid) (hi : ed.item_id = some iid)
    (ht : ed.event_type = some "rate") (hr : ed.rating = some q) (hq : q ≠ 0)
    (hp : assocFind db.profiles uid = some p0) :
    (process_event db cache now ed).1.ok = true ∧
    (process_event db cache now ed).2.1.events
      = db.events ++ [mkUserEvent uid iid "rate" (some q) ed.source now] ∧
    profileTotalRatings (process_event db cache now ed).2.1 uid
      = some (p0.total_ratings + 1) ∧
    profileAvgRating (process_event db cache now ed).2.1 uid
      = some (some ((ratingValues uid (process_event db cache now ed).2.1.events).sum
              / ((ratingValues uid (process_event db cache now ed).2.1.events).length : Rat))) := by
  obtain ⟨edu, edi, edt, edr, eds⟩ := ed
  simp only at hu hi ht hr
  subst hu
  subst hi
  subst ht
  subst hr
  have hqfilter :
      ratingValues uid (db.events ++ [mkUserEvent uid iid "rate" (some q) eds now])
        = ratingValues uid db.events ++ [q] := by
    simp [ratingValues, List.filter_append, mkUserEvent]
  have hrs :
      (ratingValues uid (db.events ++ [mkUserEvent uid iid "rate" (some q) eds now])).isEmpty
        = false := by
    rw [hqfilter]
    simp
  refine ⟨rfl, ?_, ?_, ?_⟩
  · simp [process_event, updateUserProfile_events_eq, mkUserEvent]
  · simp [process_event, profileTotalRatings, updateUserProfile,
      assocFind_assocSet_self, hp, hq, hrs]
  · simp [process_event, profileAvgRating, updateUserProfile,
      assocFind_assocSet_self, hp, hq, hrs, hqfilter]

/-- Witness for C7 (amended) at a concrete input: user 42 already has a
profile row with one rating; a second rating event with rating 5 brings the
counter to two. -/
theorem C7_witness :
    profileTotalRatings
        (process_event dbCx (⟨none, []⟩ : CacheState Nat) 3600
          ⟨some 42, some 7, some "rate", some 5, none⟩).2.1 42
      = some 2 :=
  (C7_rating_ingest_updates_profile dbCx (⟨none, []⟩ : CacheState Nat) 3600
    ⟨some 42, some 7, some "rate", some 5, none⟩ 42 7 5
    ⟨5, 1, some 4, some 0, some 0, some 0⟩ rfl rfl rfl rfl (by norm_num) rfl).2.2.1

/-- C7 counterexample, refuting the claim as stated on two inputs. First: a
`rate` event carrying the rating value `0.0` for user 42 (who has a profile
row with `total_ratings = 1`) is processed successfully but does **not**
increment `total_ratings`, because the rating statistics are guarded by the
Python-truthy test `event_data.get('rating')`. Second: a `rate` event with
rating `5.0` for a user with persisted history but no profile row reports
success while creating no profile at all (and so incrementing nothing) —
the fresh SQLAlchemy row's counters are `None` before flush, the `+= 1`
raises, and the update is swallowed and rolled back. -/
theorem C7_counterexample :
    ((process_event dbCx cacheCx 100 edCx).1.ok = true ∧
      profileTotalRatings (process_event dbCx cacheCx 100 edCx).2.1 42 = some 1 ∧
      profileTotalRatings dbCx 42 = some 1) ∧
    ((process_event (⟨[⟨42, 7, "rate", some 4, 0, "web"⟩], [], []⟩ : Db) cacheCx 100
        ⟨some 42, some 7, some "rate", some 5, none⟩).1.ok = true ∧
      (process_event (⟨[⟨42, 7, "rate", some 4, 0, "web"⟩], [], []⟩ : Db) cacheCx 100
        ⟨some 42, some 7, some "rate", some 5, none⟩).2.1.profiles = []) := by
  refine ⟨⟨rfl, ?_, rfl⟩, rfl, rfl⟩
  decide

end RecSys
